import Mathlib

/-!
Verification of the core logic of the 17 Cent Club golf quota
application (single-file Streamlit app, `src/app_single.py`).

Modelling conventions:
* Python floats are modelled as rationals (`ℚ`); every number occurring in
  the verified claims is exactly representable, so no float-specific
  behaviour is involved.
* Python ints are modelled as `ℤ`.
* Raising an exception is modelled by returning `none` (`Option`), and a
  caught exception by consuming that `none`.
* Python dicts are modelled as association lists with Python's dict
  semantics: updating an existing key keeps its position, a new key is
  appended, lookups take the unique binding.
-/

/-! ## Python dict model -/

/-- Association-list lookup, modelling Python `d.get(k)` / `k in d` on a
dict with string keys. -/
def alistGet {α : Type} : List (String × α) → String → Option α
  | [], _ => none
  | p :: t, k => if p.1 = k then some p.2 else alistGet t k

/-- Association-list update, modelling Python `d[k] = v`: an existing key
keeps its position and gets the new value, a fresh key is appended. -/
def alistSet {α : Type} : List (String × α) → String → α → List (String × α)
  | [], k, v => [(k, v)]
  | p :: t, k, v => if p.1 = k then (k, v) :: t else p :: alistSet t k v

/-! ## QuotaCalculator (`current_quota`, app_single.py lines 146-152) -/

/-- Models Python 3 `round` (banker's rounding, ties to even) on an exact
rational value, composed with `int(...)`, which is the identity on the
`int` that `round` already returns.  `Rat.floor` is used instead of the
`Int.floor` notation so that the definition evaluates by kernel
reduction. -/
def pyRound (q : ℚ) : ℤ :=
  if q - Rat.floor q < 1/2 then Rat.floor q
  else if 1/2 < q - Rat.floor q then Rat.floor q + 1
  else if Rat.floor q % 2 = 0 then Rat.floor q else Rat.floor q + 1

/-- Insertion step for a descending sort. -/
def insertDesc (x : ℚ) : List ℚ → List ℚ
  | [] => [x]
  | y :: ys => if y ≤ x then x :: y :: ys else y :: insertDesc x ys

/-- Models Python `sorted(xs, reverse=True)` (descending order).  Stability
differences between insertion sort and timsort cannot change any quota:
only the multiset of the six largest values matters. -/
def sortDesc : List ℚ → List ℚ
  | [] => []
  | x :: xs => insertDesc x (sortDesc xs)

/-- Models `best6 = sorted(recent, reverse=True)[:6]` applied to
`recent = rounds[-9:]` (lines 150-151).  Python's `rounds[-9:]` is the
last nine list entries, i.e. `drop (length - 9)` with truncated
subtraction. -/
def best6 (rounds : List ℚ) : List ℚ :=
  (sortDesc (rounds.drop (rounds.length - 9))).take 6

/-- Models `current_quota(rounds, initial_quota)` (lines 146-152):

* zero rounds: `int(round(initial_quota))`;
* otherwise `int(round(sum(best6) / 6))` where `best6` keeps the six
  highest of the last nine rounds, with a dead fallback to the initial
  quota when `best6` is empty.

The divisor is the literal constant `6` from line 152. -/
def current_quota (rounds : List ℚ) (initial_quota : ℚ) : ℤ :=
  if rounds = [] then pyRound initial_quota
  else if best6 rounds = [] then pyRound initial_quota
  else pyRound ((best6 rounds).sum / 6)

/-- Mean that line 152 actually rounds: the sum of the selected scores
divided by the fixed constant 6. -/
def mean6 (rounds : List ℚ) : ℚ := (best6 rounds).sum / 6

/-- Distance between two rationals, written without the lattice `abs` so
that it evaluates by kernel reduction. -/
def qdist (x y : ℚ) : ℚ := if x ≤ y then y - x else x - y

/-! ## NameResolver (CSV upload fuzzy match, app_single.py lines 512-517) -/

/-- Models the default-choice decision of the upload review step
(lines 512-517).  The argument `suggestions` stands for the return value
of `process.extract(pname, all_player_names, scorer=fuzz.token_sort_ratio,
limit=3)`: at most three `(candidate, similarity)` pairs, ordered by
similarity, highest first.  The source keeps every candidate with
similarity at least the literal `70` and, when any survive, pre-selects
the best one as `"Match: <name>"`; otherwise it pre-selects
`"Add NEW player: <raw name>"`. -/
def default_choice (pname : String) (suggestions : List (String × ℚ)) : String :=
  match (suggestions.filter (fun s => decide (70 ≤ s.2))).map Prod.fst with
  | [] => "Add NEW player: " ++ pname
  | s :: _ => "Match: " ++ s

/-! ## Score coercion (`float`, app_single.py line 563) -/

/-- Digit-prefix scanner: longest run of decimal digits and the rest. -/
def takeDigits : List Char → List ℕ × List Char
  | [] => ([], [])
  | c :: cs =>
    if c.isDigit then
      ((c.toNat - 48) :: (takeDigits cs).1, (takeDigits cs).2)
    else ([], c :: cs)

/-- Decimal value of a digit list, most significant first. -/
def digitsToNat (ds : List ℕ) : ℕ := ds.foldl (fun a d => 10 * a + d) 0

/-- Models Python `float(s)` on a string: optional surrounding whitespace,
optional sign, decimal digits with optional fractional part, optional
exponent; `none` models the `ValueError` raised on anything else.  The
special spellings `inf`, `nan` and underscore digit separators, which no
claim touches, are not modelled (they would parse in Python but here fall
into the `none` branch). -/
def pyFloat (s : String) : Option ℚ :=
  let cs := s.trim.toList
  let sgn : ℚ := match cs with
    | '-' :: _ => -1
    | _ => 1
  let cs1 := match cs with
    | '+' :: t => t
    | '-' :: t => t
    | t => t
  let ip := takeDigits cs1
  let fp := match ip.2 with
    | '.' :: t => takeDigits t
    | t => ([], t)
  if ip.1.length + fp.1.length = 0 then none
  else
    let mant : ℚ := sgn * ((digitsToNat ip.1 : ℚ) + (digitsToNat fp.1 : ℚ) / (10 : ℚ) ^ fp.1.length)
    match fp.2 with
    | [] => some mant
    | e :: t =>
      if e = 'e' ∨ e = 'E' then
        let epos : Bool := match t with
          | '-' :: _ => false
          | _ => true
        let t1 := match t with
          | '+' :: u => u
          | '-' :: u => u
          | u => u
        let ed := takeDigits t1
        if ed.1.length = 0 ∨ ed.2 ≠ [] then none
        else some (if epos then mant * (10 : ℚ) ^ (digitsToNat ed.1) else mant / (10 : ℚ) ^ (digitsToNat ed.1))
      else none

/-- Models the per-score coercion `float(x or 0)` of line 563, applied to
the already-stripped cell text: the empty string is falsy, so `x or 0`
turns it into `float(0) = 0.0`; every other string goes to `float(x)`,
whose `ValueError` (modelled by `none`) propagates and aborts the apply
step. -/
def coerceScore (x : String) : Option ℚ :=
  if x = "" then some 0 else pyFloat x

/-! ## IngestionPipeline (Upload Results page, app_single.py lines 471-599) -/

/-- Leap-year rule used by `datetime` when validating a day of month. -/
def isLeap (y : ℕ) : Bool := (y % 4 = 0 && y % 100 != 0) || y % 400 = 0

/-- Days in a month, as validated by `datetime.strptime`. -/
def daysInMonth (y m : ℕ) : ℕ :=
  if m = 2 then (if isLeap y then 29 else 28)
  else if m = 4 ∨ m = 6 ∨ m = 9 ∨ m = 11 then 30 else 31

/-- Zero-pad a number to two digits, as `strftime` prints months and days. -/
def pad2 (n : ℕ) : String := if n < 10 then "0" ++ toString n else toString n

/-- Zero-pad a number to four digits, as `strftime` prints years. -/
def pad4 (n : ℕ) : String :=
  (if n < 10 then "000" else if n < 100 then "00" else if n < 1000 then "0" else "") ++ toString n

/-- Models `_mmddyyyy_to_iso` (lines 471-478): strip the input, return ""
when empty, otherwise parse strictly as `%m/%d/%Y` (one or two digit month
and day, exactly four digit year, calendar-valid day, year at least 1) and
reformat as `%Y-%m-%d`; any parse failure is caught and becomes "". -/
def mmddyyyy_to_iso (s : String) : String :=
  let cs := s.trim.toList
  if cs = [] then ""
  else
    let mp := takeDigits cs
    match mp.2 with
    | '/' :: r2 =>
      let dp := takeDigits r2
      match dp.2 with
      | '/' :: r4 =>
        let yp := takeDigits r4
        let m := digitsToNat mp.1
        let d := digitsToNat dp.1
        let y := digitsToNat yp.1
        if yp.2 = [] ∧ 1 ≤ mp.1.length ∧ mp.1.length ≤ 2 ∧ 1 ≤ dp.1.length ∧ dp.1.length ≤ 2
            ∧ yp.1.length = 4 ∧ 1 ≤ m ∧ m ≤ 12 ∧ 1 ≤ d ∧ d ≤ daysInMonth y m ∧ 1 ≤ y
        then pad4 y ++ "-" ++ pad2 m ++ "-" ++ pad2 d
        else ""
      | _ => ""
    | _ => ""

/-- Models Python `str.title()` on ASCII text: the first alphabetic
character of every alphabetic run is upper-cased, the rest lower-cased. -/
def titleGo : Bool → List Char → List Char
  | _, [] => []
  | prev, c :: t =>
    (if c.isAlpha then (if prev then c.toLower else c.toUpper) else c) :: titleGo c.isAlpha t

/-- Models `pname.title()` (line 584). -/
def pyTitle (s : String) : String := String.mk (titleGo false s.toList)

/-- Player record as the upload path uses it (name, age, initial quota,
rounds).  Existing records may also carry a `temp_bonus` field; it is
never read or written anywhere on the upload path (new players are even
created without it, lines 583-588), so it is not modelled. -/
structure UPlayer where
  name : String
  age : ℤ
  initial_quota : ℤ
  rounds : List ℚ
deriving Repr

/-- Tournament record (name, date, results keyed by player id). -/
structure UTournament where
  name : String
  date : String
  results : List (String × List ℚ)
deriving Repr

/-- The two store collections the upload path mutates. -/
structure Store where
  players : List (String × UPlayer)
  tournaments : List (String × UTournament)
deriving Repr

/-- Counters accumulated by the apply step (line 557). -/
structure Summary where
  applied : ℕ
  created_players : ℕ
  created_tournaments : ℕ
deriving Repr

/-- One reviewed upload row (lines 519-530).  The stored fuzzy
`suggestions` and `default_choice` fields only seed the review dropdowns
(see `default_choice` above); the apply step reads the final choices from
`row_choices`, which `uploadBatch` takes as an input, so they are not
carried here. -/
structure PendingRow where
  tournament_name : String
  tournament_date : String
  player_name : String
  rounds : List String
deriving Repr

/-- Models the normalised column map of line 500:
`cols = (c.strip().lower() -> c  for c in dfu.columns)`. -/
def colMap (columns : List String) : List (String × String) :=
  columns.foldl (fun m c => alistSet m (c.trim.toLower) c) []

/-- The required-column list of line 501. -/
def reqCols : List String :=
  ["tournament_name", "player_name", "round_1", "round_2", "round_3"]

/-- Models line 502: the required columns absent from the normalised
column map. -/
def missingCols (columns : List String) : List String :=
  reqCols.filter (fun r => (alistGet (colMap columns) r).isNone)

/-- Models the row extraction of lines 507-530: every cell is read through
the column map (`row[cols[...]]`), `fillna("")` makes missing cells empty
strings, and names, date and the three round cells are stripped; the date
goes through `_mmddyyyy_to_iso` only when a `tournament_date` column
exists. -/
def buildRow (cmap : List (String × String)) (row : List (String × String)) : PendingRow :=
  let cell := fun (norm : String) =>
    match alistGet cmap norm with
    | some orig => (alistGet row orig).getD ""
    | none => ""
  { tournament_name := (cell "tournament_name").trim
    tournament_date :=
      match alistGet cmap "tournament_date" with
      | some _ => mmddyyyy_to_iso (cell "tournament_date")
      | none => ""
    player_name := (cell "player_name").trim
    rounds := [(cell "round_1").trim, (cell "round_2").trim, (cell "round_3").trim] }

/-- Models one iteration of the apply loop (lines 560-594):

* coerce the three round cells (`float(x or 0)`, line 563) — a
  `ValueError` (`none`) aborts the whole handler;
* derive the tournament key (line 568) and create the tournament on first
  sight (lines 569-571);
* for a `"Match: ..."` choice, look up the first player whose lower-cased
  name equals the lower-cased remainder of the choice (lines 575-580) — no
  hit leaves the row unapplied; any other choice creates a new player
  (title-cased name, age 65, initial quota 18, no rounds) under the fresh
  id `freshId`, which models `str(uuid4())[:8]` (lines 582-590);
* store the scores under the resolved player id, overwriting any previous
  entry for that tournament and player (line 593).

Returns the new store and the increments of the applied, created-players
and created-tournaments counters. -/
def applyRow (st : Store) (choice : String) (freshId : String) (r : PendingRow) :
    Option (Store × ℕ × ℕ × ℕ) :=
  match r.rounds.mapM coerceScore with
  | none => none
  | some rounds =>
    let key := if r.tournament_date ≠ "" then r.tournament_name.toLower ++ "|" ++ r.tournament_date
               else r.tournament_name.toLower
    let created :=
      match alistGet st.tournaments key with
      | some _ => (st.tournaments, 0)
      | none => (alistSet st.tournaments key ⟨r.tournament_name, r.tournament_date, []⟩, 1)
    let ts := created.1
    let ct := created.2
    if choice.startsWith "Match: " then
      let mname := ((choice.replace "Match: " "").trim.toLower)
      match st.players.find? (fun p => p.2.name.toLower == mname) with
      | some pm =>
        match alistGet ts key with
        | some t => some (⟨st.players, alistSet ts key ⟨t.name, t.date, alistSet t.results pm.1 rounds⟩⟩, 1, 0, ct)
        | none => none
      | none => some (⟨st.players, ts⟩, 0, 0, ct)
    else
      let newPlayers := alistSet st.players freshId ⟨pyTitle r.player_name, 65, 18, []⟩
      match alistGet ts key with
      | some t => some (⟨newPlayers, alistSet ts key ⟨t.name, t.date, alistSet t.results freshId rounds⟩⟩, 1, 1, ct)
      | none => none

/-- Folds `applyRow` over the reviewed rows in order (lines 560-594),
threading the store and summing the counters; `choices i` is the final
review selection for row `i` (`st.session_state.row_choices[i]`) and
`fresh i` the uuid assigned if row `i` creates a player. -/
def applyUpload (choices fresh : ℕ → String) :
    List (ℕ × PendingRow) → Store → Summary → Option (Store × Summary)
  | [], st, acc => some (st, acc)
  | (i, r) :: rest, st, acc =>
    match applyRow st (choices i) (fresh i) r with
    | none => none
    | some (st2, a, cp, ct) =>
      applyUpload choices fresh rest st2
        ⟨acc.applied + a, acc.created_players + cp, acc.created_tournaments + ct⟩

/-- Models one whole upload batch against the persisted store: the column
validation of lines 499-504 runs first and, when any required column is
missing, the handler stops at `st.error(...)` with the document untouched;
otherwise the reviewed rows are built and applied, and `save_data` puts
the mutated document on disk (line 596).  When the apply loop raises
(`none` from a bad float), `save_data` is never reached, and the next
Streamlit rerun reloads the document from disk, so the persisted store is
also unchanged in that case. -/
def uploadBatch (columns : List String) (rows : List (List (String × String)))
    (choices fresh : ℕ → String) (st : Store) : Store × Except (List String) Summary :=
  if missingCols columns ≠ [] then (st, Except.error (missingCols columns))
  else
    match applyUpload choices fresh ((rows.map (buildRow (colMap columns))).enum) st ⟨0, 0, 0⟩ with
    | none => (st, Except.error ["ValueError: could not convert string to float"])
    | some (st2, s) => (st2, Except.ok s)

/-! ## JSON document model and `load_data` (app_single.py lines 16-29) -/

/-- JSON values, as `json.load` produces them. -/
inductive JVal where
  | null
  | jbool (b : Bool)
  | num (q : ℚ)
  | str (s : String)
  | arr (elems : List JVal)
  | obj (fields : List (String × JVal))

/-- Substring test, modelling Python `needle in haystack` on strings. -/
def substrOf (needle hay : String) : Bool :=
  needle = "" || (hay.splitOn needle).length ≥ 2

/-- Equality of a JSON value with a given string, as Python `==` sees it:
only a string value can equal a string. -/
def jStrEq (k : String) : JVal → Bool
  | .str s => s = k
  | _ => false

/-- Python truthiness of a JSON value. -/
def pyTruthy : JVal → Bool
  | .null => false
  | .jbool b => b
  | .num q => !(q == 0)
  | .str s => !(s == "")
  | .arr l => !l.isEmpty
  | .obj l => !l.isEmpty

/-- Models Python `k in v` for a string `k`: key membership on dicts,
element equality on lists, substring on strings; on numbers, booleans and
`None` the `in` operator raises `TypeError`, modelled as `none`. -/
def pyContains (v : JVal) (k : String) : Option Bool :=
  match v with
  | .obj l => some (l.any (fun p => p.1 == k))
  | .arr l => some (l.any (jStrEq k))
  | .str s => some (substrOf k s)
  | _ => none

/-- Models Python `v[k]` for a string `k`: a dict lookup (`KeyError` on a
missing key, modelled as `none`); every non-dict raises `TypeError`. -/
def pyGetItem (v : JVal) (k : String) : Option JVal :=
  match v with
  | .obj l => alistGet l k
  | _ => none

/-- Models Python `v[k] = w` for a string `k`: dict update; every
non-dict raises (`TypeError` on lists and numbers, strings are
immutable). -/
def pySetItem (v : JVal) (k : String) (w : JVal) : Option JVal :=
  match v with
  | .obj l => some (.obj (alistSet l k w))
  | _ => none

/-- The document `load_data` falls back to (line 29). -/
def defaultDoc : JVal :=
  .obj [("players", .obj []), ("tournaments", .obj []),
        ("settings", .obj [("admin_pin", .str "")])]

/-- Models the settings fix-up inside the `try` block (lines 21-26): if
`"settings" not in loaded` then `loaded["settings"] = ("admin_pin": "")`;
else if `"admin_pin" not in loaded["settings"]` then set it to "".  A
`none` result models an exception escaping to the `except` handler. -/
def fixSettings (v : JVal) : Option JVal :=
  match pyContains v "settings" with
  | none => none
  | some false => pySetItem v "settings" (.obj [("admin_pin", .str "")])
  | some true =>
    match pyGetItem v "settings" with
    | none => none
    | some s =>
      match pyContains s "admin_pin" with
      | none => none
      | some true => some v
      | some false =>
        match pySetItem s "admin_pin" (.str "") with
        | none => none
        | some s2 => pySetItem v "settings" s2

/-- State of `golf_data.json` when `load_data` runs. -/
inductive FileState where
  | absent
  | unreadable
  | invalidJson
  | valid (v : JVal)

/-- Models `load_data` (lines 16-29): an absent file skips the `try`
entirely; an unreadable file or invalid JSON raises inside the `try` and
is swallowed by `except Exception: pass`; parsed JSON goes through the
settings fix-up, whose own exceptions are swallowed the same way.  Every
path that raises ends in the default document of line 29. -/
def load_data (fs : FileState) : JVal :=
  match fs with
  | .valid v => (fixSettings v).getD defaultDoc
  | _ => defaultDoc

/-- Whether a JSON value is an object (dict). -/
def isObj : JVal → Bool
  | .obj _ => true
  | _ => false

/-- Claim C9's guarantee, stated from the claim's words: the document has
a `settings` key whose value is a mapping containing an `admin_pin` key. -/
def hasSettingsPin (v : JVal) : Bool :=
  match v with
  | .obj l =>
    match alistGet l "settings" with
    | some (.obj s) => s.any (fun p => p.1 == "admin_pin")
    | _ => false
  | _ => false

/-! ## Legacy migration (`_normalize_data`, tournaments branch,
app_single.py lines 72-108) -/

/-- Models Python `float(x)` on a JSON value: numbers pass through,
booleans become 0.0 and 1.0, strings are parsed as by `pyFloat`; `None`,
lists and dicts raise `TypeError` (`none`). -/
def pyFloatJ : JVal → Option ℚ
  | .num q => some q
  | .jbool b => some (if b then 1 else 0)
  | .str s => pyFloat s
  | _ => none

/-- Models `float(r.get("rN", 0) or 0)` (line 87): a falsy value becomes
`float(0)`; a raised `ValueError`/`TypeError` is `none` (this `float` call
is not wrapped in any `try`). -/
def scoreOrZero (v : JVal) : Option ℚ :=
  pyFloatJ (if pyTruthy v then v else .num 0)

/-- Models line 87: the `[r1, r2, r3]` list built from a legacy result row
`r`, which must be a dict for `r.get` to exist. -/
def rowScores (fields : List (String × JVal)) : Option (List ℚ) := do
  let a ← scoreOrZero ((alistGet fields "r1").getD (.num 0))
  let b ← scoreOrZero ((alistGet fields "r2").getD (.num 0))
  let c ← scoreOrZero ((alistGet fields "r3").getD (.num 0))
  pure [a, b, c]

/-- Models `try: vals = [float(x) for x in (rr or [])] except: vals =
[0.0, 0.0, 0.0]` (lines 96-99 and 120-123).  A falsy `rr` is replaced by
`[]`; iterating a list visits its elements, a string its one-character
substrings, a dict its keys; iterating anything else raises, and every
raise is caught into `[0, 0, 0]`. -/
def floatListOf (rr : JVal) : List ℚ :=
  match (if pyTruthy rr then rr else .arr []) with
  | .arr l => (l.mapM pyFloatJ).getD [0, 0, 0]
  | .str s => (s.toList.mapM (fun c => pyFloat (String.singleton c))).getD [0, 0, 0]
  | .obj l => (l.mapM (fun p => pyFloat p.1)).getD [0, 0, 0]
  | _ => [0, 0, 0]

/-- Models `(vals + [0.0, 0.0, 0.0])[:3]` (lines 100 and 124): pad with
zeros and truncate so the result has exactly three entries. -/
def padTo3 (l : List ℚ) : List ℚ := (l ++ [0, 0, 0]).take 3

/-- Models the dict fix-up of lines 91-101: every key is stripped,
lower-cased and mapped through `name_to_pid` (argument `ntp`, built on
line 72), and every value becomes a padded-to-three float list; entries
are written into a fresh dict in order, so later duplicate ids
overwrite earlier ones. -/
def dictFixEntries (ntp : List (String × String)) (entries : List (String × JVal)) :
    List (String × List ℚ) :=
  entries.foldl
    (fun acc kv =>
      alistSet acc ((alistGet ntp (kv.1.trim.toLower)).getD (kv.1.trim.toLower))
        (padTo3 (floatListOf kv.2)))
    []

/-- Models the list-of-rows conversion of lines 82-89: each row must be a
dict; its player name is `r.get("player") or r.get("name") or ""`,
stripped and lower-cased (a truthy non-string raises at `.strip()`), the
player id comes from `name_to_pid` with the name itself as fallback and a
fresh uuid (`u i` for row `i`) when the name is empty; the row's scores
(line 87) are stored as a length-3 list.  The accumulator is the `tmp`
dict of line 83. -/
def rowsToObj (ntp : List (String × String)) (u : ℕ → String) :
    ℕ → List (String × JVal) → List JVal → Option (List (String × JVal))
  | _, acc, [] => some acc
  | i, acc, .obj fields :: rest =>
    (match (if pyTruthy ((alistGet fields "player").getD .null) then
              (alistGet fields "player").getD .null
            else if pyTruthy ((alistGet fields "name").getD .null) then
              (alistGet fields "name").getD .null
            else .str "") with
     | .str s =>
       match rowScores fields with
       | none => none
       | some rr =>
         rowsToObj ntp u (i + 1)
           (alistSet acc
             ((alistGet ntp s.trim.toLower).getD
               (if s.trim.toLower = "" then u i else s.trim.toLower))
             (.arr (rr.map JVal.num)))
           rest
     | _ => none)
  | _, _, _ :: _ => none

/-- Normalised results of one migrated tournament: either a fixed dict of
id-to-scores entries (when the legacy value was a list of rows or a dict)
or the original value passed through untouched (a truthy non-list,
non-dict `results` value, which carries no score lists). -/
inductive NResults where
  | fixed (entries : List (String × List ℚ))
  | raw (v : JVal)

/-- Output record for one migrated tournament (lines 103-107). -/
structure NTournOut where
  name : String
  date : String
  results : NResults

/-- Models the body of the loop of lines 77-107 for one legacy tournament
`t`, which must be a dict (`t.get` otherwise raises):

* `name` must be a string or absent — its `.strip()` on lines 78 and 104
  raises otherwise;
* `date` is modelled as a string or absent; non-string dates (which the
  f-string of line 78 would format) are outside this embedding and give
  `none`;
* the id is `t.get("id")` when truthy, else the always-truthy
  `"<name>|<date>"` key of line 78 (the `uuid4` alternative is dead code);
  non-string truthy ids (which Python would use as non-string dict keys)
  are outside this embedding and give `none`;
* `results` defaults to the empty dict when falsy (line 80); a list of
  rows is converted as in `rowsToObj` and, being then a dict, also flows
  through the dict fix-up of lines 91-101, exactly as in the source. -/
def normTournament (ntp : List (String × String)) (u : ℕ → String) (t : JVal) :
    Option (String × NTournOut) :=
  match t with
  | .obj fields =>
    match (alistGet fields "name").getD (.str "") with
    | .str nm =>
      match (alistGet fields "date").getD (.str "") with
      | .str dt =>
        let fallback := nm.trim.toLower ++ "|" ++ dt
        let tidOpt : Option String :=
          match (alistGet fields "id").getD .null with
          | .str s => some (if s = "" then fallback else s)
          | v => if pyTruthy v then none else some fallback
        match tidOpt with
        | none => none
        | some tid =>
          let raw0 := (alistGet fields "results").getD .null
          let rawRes := if pyTruthy raw0 then raw0 else .obj []
          let step1 : Option JVal :=
            match rawRes with
            | .arr rows => (rowsToObj ntp u 0 [] rows).map .obj
            | other => some other
          match step1 with
          | none => none
          | some v1 =>
            let res :=
              match v1 with
              | .obj entries => NResults.fixed (dictFixEntries ntp entries)
              | other => NResults.raw other
            some (tid, ⟨nm.trim, dt, res⟩)
      | _ => none
    | _ => none
  | _ => none

/-- Models the whole `isinstance(d.get("tournaments"), list)` branch of
lines 75-108: each legacy tournament is migrated in order and written into
the fresh `new_t` dict under its id (later duplicates overwrite); `u i j`
supplies the uuid for row `j` of tournament `i`.  A `none` models an
exception aborting `_normalize_data` (none of this code is inside a
`try`). -/
def normTournamentsList (ntp : List (String × String)) (u : ℕ → ℕ → String) :
    ℕ → List (String × NTournOut) → List JVal → Option (List (String × NTournOut))
  | _, acc, [] => some acc
  | i, acc, t :: rest =>
    match normTournament ntp (u i) t with
    | none => none
    | some (tid, nt) => normTournamentsList ntp u (i + 1) (alistSet acc tid nt) rest

/-- Decidable statement of claim C10's invariant over a migrated
tournament dict: every score list in every fixed results dict has exactly
three entries. -/
def resultsAllLen3 (out : List (String × NTournOut)) : Bool :=
  out.all (fun p =>
    match p.2.results with
    | .fixed es => es.all (fun e => e.2.length == 3)
    | .raw _ => true)

/-! ## Helper lemmas -/

theorem ratFloor_eq (q : ℚ) : Rat.floor q = ⌊q⌋ := by
  rw [Rat.floor_def', Rat.floor_def]

theorem pyRound_def2 (q : ℚ) :
    pyRound q =
      if q - ⌊q⌋ < 1/2 then ⌊q⌋
      else if 1/2 < q - ⌊q⌋ then ⌊q⌋ + 1
      else if ⌊q⌋ % 2 = 0 then ⌊q⌋ else ⌊q⌋ + 1 := by
  unfold pyRound
  rw [ratFloor_eq]

theorem pyRound_nearest (q : ℚ) (m : ℤ) : qdist (pyRound q) q ≤ qdist m q := by
  have hf : ((⌊q⌋ : ℤ) : ℚ) ≤ q := Int.floor_le q
  have hc : q < ((⌊q⌋ : ℤ) : ℚ) + 1 := Int.lt_floor_add_one q
  have hm : (m : ℚ) ≤ ((⌊q⌋ : ℤ) : ℚ) ∨ ((⌊q⌋ : ℤ) : ℚ) + 1 ≤ (m : ℚ) := by
    rcases le_or_lt m ⌊q⌋ with h | h
    · left; exact_mod_cast h
    · right; exact_mod_cast h
  unfold qdist
  rw [pyRound_def2]
  rcases hm with hm | hm <;> split_ifs <;> push_cast at * <;> linarith

theorem pyRound_intCast (n : ℤ) : pyRound ((n : ℤ) : ℚ) = n := by
  rw [pyRound_def2]
  rw [Int.floor_intCast]
  rw [if_pos (by norm_num)]

theorem pyRound_nonneg {q : ℚ} (h : 0 ≤ q) : 0 ≤ pyRound q := by
  have hfl : 0 ≤ ⌊q⌋ := Int.floor_nonneg.mpr h
  rw [pyRound_def2]
  split_ifs <;> omega

theorem insertDesc_length (x : ℚ) (l : List ℚ) :
    (insertDesc x l).length = l.length + 1 := by
  induction l with
  | nil => rfl
  | cons y ys ih =>
    unfold insertDesc
    split_ifs <;> simp [List.length_cons, ih]

theorem sortDesc_length (l : List ℚ) : (sortDesc l).length = l.length := by
  induction l with
  | nil => rfl
  | cons x xs ih =>
    unfold sortDesc
    rw [insertDesc_length, ih, List.length_cons]

theorem insertDesc_sum (x : ℚ) (l : List ℚ) : (insertDesc x l).sum = x + l.sum := by
  induction l with
  | nil => simp [insertDesc]
  | cons y ys ih =>
    unfold insertDesc
    split_ifs <;> simp [List.sum_cons, ih] <;> ring

theorem sortDesc_sum (l : List ℚ) : (sortDesc l).sum = l.sum := by
  induction l with
  | nil => rfl
  | cons x xs ih =>
    unfold sortDesc
    rw [insertDesc_sum, ih, List.sum_cons]

theorem mem_insertDesc {y : ℚ} (x : ℚ) (l : List ℚ) :
    y ∈ insertDesc x l ↔ y = x ∨ y ∈ l := by
  induction l with
  | nil => simp [insertDesc]
  | cons z zs ih =>
    unfold insertDesc
    split_ifs <;> simp [ih] <;> tauto

theorem mem_sortDesc {y : ℚ} (l : List ℚ) : y ∈ sortDesc l ↔ y ∈ l := by
  induction l with
  | nil => simp [sortDesc]
  | cons x xs ih =>
    unfold sortDesc
    rw [mem_insertDesc]
    simp [ih]

theorem best6_subset {x : ℚ} {r : List ℚ} (h : x ∈ best6 r) : x ∈ r := by
  unfold best6 at h
  have h1 := List.take_subset _ _ h
  rw [mem_sortDesc] at h1
  exact List.drop_subset _ _ h1

theorem best6_ne_nil {r : List ℚ} (h : r ≠ []) : best6 r ≠ [] := by
  have hpos : 0 < r.length := List.length_pos.mpr h
  unfold best6
  intro hc
  have hl := congrArg List.length hc
  simp only [List.length_take, sortDesc_length, List.length_drop, List.length_nil] at hl
  omega

theorem current_quota_eq_mean {r : List ℚ} (iq : ℚ) (h : r ≠ []) :
    current_quota r iq = pyRound (mean6 r) := by
  unfold current_quota mean6
  rw [if_neg h, if_neg (best6_ne_nil h)]

/-! ## Claims about QuotaCalculator -/

/-- Claim C1, counterexample: on exactly three rounds `[10, 14, 12]` the
source's `current_quota` returns `round(36 / 6) = 6`, not the
count-divisor mean `12` the claim asserts. -/
theorem quota_divisor_counterexample :
    current_quota [10, 14, 12] 18 = 6 ∧ (6 : ℤ) ≠ 12 :=
  ⟨by with_unfolding_all rfl, by decide⟩

/-- Claim C1, amended: for a player with at least one and fewer than six
rounds, `current_quota` divides the sum of all the rounds by the fixed
constant 6 — the divisor is not the count of selected scores. -/
theorem quota_fixed_divisor (r : List ℚ) (iq : ℚ) (h1 : r ≠ []) (h2 : r.length < 6) :
    current_quota r iq = pyRound (r.sum / 6) := by
  rw [current_quota_eq_mean iq h1]
  unfold mean6 best6
  have hd : r.length - 9 = 0 := by omega
  rw [hd, List.drop_zero]
  rw [List.take_of_length_le (by rw [sortDesc_length]; omega)]
  rw [sortDesc_sum]

/-- Claim C1, witness: the amended statement evaluated on the three-round
player of the claim. -/
theorem quota_fixed_divisor_witness :
    current_quota [10, 14, 12] 18 = pyRound (([10, 14, 12] : List ℚ).sum / 6) :=
  quota_fixed_divisor [10, 14, 12] 18 (List.cons_ne_nil _ _) (by decide)

/-- Claim C2, counterexample: on the discriminating set
`[18, 18, 18, 18, 18, 13]` (sum 103, mean 17.1667) the source returns the
nearest integer 17, not the ceiling 18 the claim asserts. -/
theorem quota_rounding_counterexample :
    current_quota [18, 18, 18, 18, 18, 13] 18 = 17 ∧ (17 : ℤ) ≠ 18 :=
  ⟨by with_unfolding_all rfl, by decide⟩

/-- Claim C2, amended: for every non-empty round set the returned quota is
a nearest integer to `sum(best6) / 6` (Python `round`, ties to even) — it
is at least as close to that mean as every other integer, so the policy is
round-to-nearest, not ceiling. -/
theorem quota_rounds_to_nearest (r : List ℚ) (iq : ℚ) (m : ℤ) (h : r ≠ []) :
    qdist ((current_quota r iq : ℤ) : ℚ) (mean6 r) ≤ qdist ((m : ℤ) : ℚ) (mean6 r) := by
  rw [current_quota_eq_mean iq h]
  exact pyRound_nearest (mean6 r) m

/-- Claim C2, witness: on `[18, 18, 18, 18, 18, 13]` the returned quota
(17) is at least as close to the mean 103/6 as the integer 18 the claim
expected. -/
theorem quota_rounds_to_nearest_witness :
    qdist ((current_quota [18, 18, 18, 18, 18, 13] 18 : ℤ) : ℚ)
        (mean6 [18, 18, 18, 18, 18, 13])
      ≤ qdist ((18 : ℤ) : ℚ) (mean6 [18, 18, 18, 18, 18, 13]) :=
  quota_rounds_to_nearest _ 18 18 (List.cons_ne_nil _ _)

/-- Claim C3: with twelve rounds in chronological list order (the source
keeps rounds as a list and takes `rounds[-9:]`), the oldest round is
excluded from the quota computation even when its score is strictly the
highest: dropping it does not change the quota. -/
theorem quota_window_drops_oldest (a : ℚ) (l : List ℚ) (iq : ℚ) (hlen : l.length = 11)
    (hmax : ∀ x ∈ l, x < a) : current_quota (a :: l) iq = current_quota l iq := by
  have h2 : l ≠ [] := by
    intro hnil
    rw [hnil] at hlen
    exact absurd hlen (by decide)
  have hwin : (a :: l).drop ((a :: l).length - 9) = l.drop (l.length - 9) := by
    rw [List.length_cons, hlen]
    rfl
  have hb : best6 (a :: l) = best6 l := by
    unfold best6
    rw [hwin]
  unfold current_quota
  rw [hb, if_neg (List.cons_ne_nil a l), if_neg h2]

/-- Claim C3, witness: twelve strictly increasing-by-date rounds where the
oldest has the highest score; removing the oldest leaves the quota
unchanged. -/
theorem quota_window_drops_oldest_witness :
    current_quota [100, 1, 2, 3, 4, 5, 6, 7, 8, 9, 10, 11] 18
      = current_quota [1, 2, 3, 4, 5, 6, 7, 8, 9, 10, 11] 18 :=
  quota_window_drops_oldest 100 _ 18 (by decide) (by with_unfolding_all decide)

/-- Claim C4: with zero rounds `current_quota` returns the stored integer
`initial_quota` unchanged (`int(round(...))` is the identity on an
integer). -/
theorem quota_zero_rounds_initial (n : ℤ) : current_quota [] ((n : ℤ) : ℚ) = n := by
  unfold current_quota
  rw [if_pos rfl]
  exact pyRound_intCast n

/-- Claim C5, counterexample: on the single negative round `[-6]` the
source returns `-1`, a negative value, so the result is not always a
non-negative integer. -/
theorem quota_negative_counterexample :
    current_quota [-6] 0 = -1 ∧ ((-1 : ℤ) < 0) :=
  ⟨by with_unfolding_all rfl, by decide⟩

/-- Claim C5, amended: the result is an integer by construction, and it is
non-negative whenever every round score and the initial quota are
non-negative (scores entered through the app's own forms are clamped to
be non-negative, but the type itself does not force this). -/
theorem quota_nonneg (r : List ℚ) (iq : ℚ) (h1 : ∀ x ∈ r, 0 ≤ x) (h2 : 0 ≤ iq) :
    0 ≤ current_quota r iq := by
  unfold current_quota
  split_ifs with ha hb
  · exact pyRound_nonneg h2
  · exact pyRound_nonneg h2
  · apply pyRound_nonneg
    apply div_nonneg
    · apply List.sum_nonneg
      intro x hx
      exact h1 x (best6_subset hx)
    · norm_num

/-- Claim C5, witness: the amended statement on the non-negative rounds
`[10, 14, 12]` with initial quota 18. -/
theorem quota_nonneg_witness : 0 ≤ current_quota [10, 14, 12] 18 :=
  quota_nonneg [10, 14, 12] 18 (by with_unfolding_all decide) (by with_unfolding_all decide)

/-! ## Claims about NameResolver and ingestion -/

/-- Claim C6, counterexample: a lone candidate with similarity 85 — below
the claimed default threshold of 90 — is pre-selected as an automatic
`"Match: ..."` acceptance, not surfaced as a mere suggestion of an
unmatched result. -/
theorem fuzzy_threshold_counterexample :
    default_choice "Jon Smith" [("John Smith", 85)] = "Match: John Smith"
      ∧ (85 : ℚ) < 90 :=
  ⟨by with_unfolding_all rfl, by with_unfolding_all decide⟩

/-- Claim C6, amended: the upload fuzzy-match step uses the fixed literal
threshold 70 (not a configurable default of 90): given the extractor's
best candidate first, the pre-selected choice is the automatic acceptance
`"Match: <best>"` exactly when the best similarity is at least 70, and
`"Add NEW player: <raw>"` otherwise. -/
theorem fuzzy_default_accepts_at_70 (pname : String) (best : String × ℚ)
    (rest : List (String × ℚ)) (hsorted : ∀ p ∈ rest, p.2 ≤ best.2) :
    default_choice pname (best :: rest) =
      if (70 : ℚ) ≤ best.2 then "Match: " ++ best.1 else "Add NEW player: " ++ pname := by
  unfold default_choice
  by_cases h : (70 : ℚ) ≤ best.2
  · rw [if_pos h]
    simp only [List.filter_cons, decide_eq_true_eq]
    rw [if_pos h]
    rfl
  · rw [if_neg h]
    have hres : List.filter (fun s => decide ((70 : ℚ) ≤ s.2)) rest = [] := by
      rw [List.filter_eq_nil]
      intro p hp
      simp only [decide_eq_true_eq]
      push_neg at h ⊢
      exact lt_of_le_of_lt (hsorted p hp) h
    simp only [List.filter_cons, decide_eq_true_eq]
    rw [if_neg h, hres]
    rfl

/-- Claim C6, witness: with the best candidate at similarity 95 (above 70)
the pre-selected choice is the acceptance of that candidate. -/
theorem fuzzy_default_accepts_at_70_witness :
    default_choice "Jon" [("John", 95), ("Johan", 80)] = "Match: " ++ "John" := by
  rw [fuzzy_default_accepts_at_70 "Jon" ("John", 95) [("Johan", 80)]
    (by with_unfolding_all decide)]
  rw [if_pos (by with_unfolding_all decide : (70 : ℚ) ≤ (("John", (95 : ℚ))).2)]

/-- Claim C7, counterexample: the score coercion `float(x or 0)` raises a
`ValueError` (modelled as `none`) on the unparsable non-empty cell
`"abc"` — it does not default it to 0.0, and the raise aborts the whole
apply handler. -/
theorem coerce_raises_counterexample : coerceScore "abc" = none := by
  with_unfolding_all rfl

/-- Claim C7, amended: the coercion defaults only the empty cell to 0.0;
a parsable cell is converted to its numeric value, and an unparsable
non-empty cell raises instead of defaulting. -/
theorem coerce_score_behavior :
    coerceScore "" = some 0 ∧ coerceScore "12.5" = some (25/2) ∧ coerceScore "abc" = none :=
  ⟨by with_unfolding_all rfl, by with_unfolding_all rfl, by with_unfolding_all rfl⟩

/-- Claim C8: when the uploaded table lacks any required column — the
tournament name, the player name, or any of the three round columns (in
particular when every score column is absent) — the batch stops with the
structural missing-columns error and the store is returned untouched: no
player or tournament mutation happens. -/
theorem upload_missing_columns_abort (columns : List String)
    (rows : List (List (String × String))) (choices fresh : ℕ → String) (st : Store)
    (h : alistGet (colMap columns) "tournament_name" = none
       ∨ alistGet (colMap columns) "player_name" = none
       ∨ alistGet (colMap columns) "round_1" = none
       ∨ alistGet (colMap columns) "round_2" = none
       ∨ alistGet (colMap columns) "round_3" = none) :
    uploadBatch columns rows choices fresh st = (st, Except.error (missingCols columns))
      ∧ missingCols columns ≠ [] := by
  have hmem : ∀ c, c ∈ reqCols → alistGet (colMap columns) c = none →
      c ∈ missingCols columns := by
    intro c hc hn
    unfold missingCols
    exact List.mem_filter.mpr ⟨hc, by simp [hn]⟩
  have hm : missingCols columns ≠ [] := by
    rcases h with h | h | h | h | h
    · exact List.ne_nil_of_mem (hmem _ (by decide) h)
    · exact List.ne_nil_of_mem (hmem _ (by decide) h)
    · exact List.ne_nil_of_mem (hmem _ (by decide) h)
    · exact List.ne_nil_of_mem (hmem _ (by decide) h)
    · exact List.ne_nil_of_mem (hmem _ (by decide) h)
  refine ⟨?_, hm⟩
  unfold uploadBatch
  rw [if_pos hm]

/-- Claim C8, witness: a table whose columns lack `tournament_name` is
rejected with the structural error and leaves an empty store unchanged. -/
theorem upload_missing_columns_abort_witness :
    uploadBatch ["Player_Name", "Round_1", "Round_2", "Round_3"] [[("Player_Name", "Bob")]]
        (fun _ => "Add NEW player: Bob") (fun _ => "ab12cd34") ⟨[], []⟩
      = (⟨[], []⟩, Except.error (missingCols ["Player_Name", "Round_1", "Round_2", "Round_3"]))
      ∧ missingCols ["Player_Name", "Round_1", "Round_2", "Round_3"] ≠ [] :=
  upload_missing_columns_abort _ _ _ _ _ (Or.inl (by with_unfolding_all rfl))

/-! ## Claims about load_data -/

theorem pyGetItem_isObj {v s : JVal} {k : String} (h : pyGetItem v k = some s) :
    isObj v = true := by
  cases v <;> first | rfl | simp [pyGetItem] at h

theorem fixSettings_isObj : ∀ v w : JVal, fixSettings v = some w → isObj w = true := by
  intro v w h
  cases v with
  | null => simp [fixSettings, pyContains] at h
  | jbool b => simp [fixSettings, pyContains] at h
  | num q => simp [fixSettings, pyContains] at h
  | str s =>
    simp only [fixSettings, pyContains] at h
    cases hb : substrOf "settings" s <;> rw [hb] at h <;>
      simp [pyGetItem, pySetItem] at h
  | arr l =>
    simp only [fixSettings, pyContains] at h
    cases hb : l.any (jStrEq "settings") <;> rw [hb] at h <;>
      simp [pyGetItem, pySetItem] at h
  | obj l =>
    simp only [fixSettings, pyContains] at h
    cases hb : l.any (fun p => p.1 == "settings") with
    | false =>
      rw [hb] at h
      simp only [pySetItem, Option.some.injEq] at h
      rw [← h]
      rfl
    | true =>
      rw [hb] at h
      simp only [pyGetItem] at h
      cases hs : alistGet l "settings" with
      | none => rw [hs] at h; simp at h
      | some s =>
        rw [hs] at h
        cases s with
        | null => simp [pyContains] at h
        | jbool b => simp [pyContains] at h
        | num q => simp [pyContains] at h
        | str s2 =>
          simp only [pyContains] at h
          cases hp : substrOf "admin_pin" s2 with
          | false => rw [hp] at h; simp [pySetItem] at h
          | true =>
            rw [hp] at h
            simp only [Option.some.injEq] at h
            rw [← h]
            rfl
        | arr a2 =>
          simp only [pyContains] at h
          cases hp : a2.any (jStrEq "admin_pin") with
          | false => rw [hp] at h; simp [pySetItem] at h
          | true =>
            rw [hp] at h
            simp only [Option.some.injEq] at h
            rw [← h]
            rfl
        | obj ls =>
          simp only [pyContains] at h
          cases hp : ls.any (fun p => p.1 == "admin_pin") with
          | false =>
            rw [hp] at h
            simp only [pySetItem, Option.some.injEq] at h
            rw [← h]
            rfl
          | true =>
            rw [hp] at h
            simp only [Option.some.injEq] at h
            rw [← h]
            rfl

/-- Claim C9, counterexample: a file that parses to the valid JSON object
whose `settings` value is the plain string `"admin_pin"` passes both `in`
checks (substring membership on strings), so `load_data` returns it
unchanged — the result does not contain a `settings` mapping with an
`admin_pin` key. -/
theorem load_data_settings_counterexample :
    load_data (FileState.valid (JVal.obj [("settings", JVal.str "admin_pin")]))
        = JVal.obj [("settings", JVal.str "admin_pin")]
      ∧ hasSettingsPin (JVal.obj [("settings", JVal.str "admin_pin")]) = false :=
  ⟨by with_unfolding_all rfl, by with_unfolding_all rfl⟩

/-- Claim C9, amended: `load_data` is total — an absent, unreadable or
invalid-JSON file yields the default document (which does carry the
`settings`/`admin_pin` mapping), and any parsed JSON yields a JSON object;
but for a parsed object whose `settings` value is a non-mapping that
passes Python's `in` checks, the document is returned with that
non-mapping `settings` value intact, so the settings-mapping guarantee
does not hold for every valid-JSON file state. -/
theorem load_data_total_behavior :
    load_data FileState.absent = defaultDoc
    ∧ load_data FileState.unreadable = defaultDoc
    ∧ load_data FileState.invalidJson = defaultDoc
    ∧ hasSettingsPin defaultDoc = true
    ∧ ∀ v : JVal, isObj (load_data (FileState.valid v)) = true := by
  refine ⟨rfl, rfl, rfl, by with_unfolding_all rfl, ?_⟩
  intro v
  show isObj ((fixSettings v).getD defaultDoc) = true
  cases hfix : fixSettings v with
  | none => rfl
  | some w =>
    exact fixSettings_isObj v w hfix

/-! ## Claims about the legacy migration -/

theorem padTo3_length (l : List ℚ) : (padTo3 l).length = 3 := by
  unfold padTo3
  rw [List.length_take, List.length_append]
  simp

theorem alistSet_forall {α : Type} (P : String × α → Prop) (l : List (String × α))
    (k : String) (v : α) (hl : ∀ p ∈ l, P p) (hkv : P (k, v)) :
    ∀ p ∈ alistSet l k v, P p := by
  induction l with
  | nil =>
    intro p hp
    simp [alistSet] at hp
    rw [hp]
    exact hkv
  | cons q t ih =>
    intro p hp
    unfold alistSet at hp
    by_cases hq : q.1 = k
    · rw [if_pos hq] at hp
      rcases List.mem_cons.mp hp with h1 | h1
      · rw [h1]; exact hkv
      · exact hl p (List.mem_cons_of_mem q h1)
    · rw [if_neg hq] at hp
      rcases List.mem_cons.mp hp with h1 | h1
      · rw [h1]; exact hl q (List.mem_cons_self q t)
      · exact ih (fun r hr => hl r (List.mem_cons_of_mem q hr)) p h1

theorem dictFix_aux (ntp : List (String × String)) :
    ∀ (entries : List (String × JVal)) (acc : List (String × List ℚ)),
      (∀ p ∈ acc, p.2.length = 3) →
      ∀ p ∈ entries.foldl
          (fun acc kv =>
            alistSet acc ((alistGet ntp (kv.1.trim.toLower)).getD (kv.1.trim.toLower))
              (padTo3 (floatListOf kv.2)))
          acc,
        p.2.length = 3 := by
  intro entries
  induction entries with
  | nil => intro acc hacc p hp; exact hacc p hp
  | cons kv rest ih =>
    intro acc hacc p hp
    rw [List.foldl_cons] at hp
    exact ih _ (alistSet_forall _ _ _ _ hacc (padTo3_length _)) p hp

theorem dictFixEntries_len3 (ntp : List (String × String)) (entries : List (String × JVal)) :
    ∀ p ∈ dictFixEntries ntp entries, p.2.length = 3 :=
  dictFix_aux ntp entries [] (by intro p hp; simp at hp)

theorem normTournament_len3 (ntp : List (String × String)) (u : ℕ → String) (t : JVal)
    (tid : String) (nt : NTournOut) (hmain : normTournament ntp u t = some (tid, nt)) :
    ∀ es, nt.results = NResults.fixed es → ∀ e ∈ es, e.2.length = 3 := by
  intro es hres e he
  cases t with
  | null => simp [normTournament] at hmain
  | jbool b => simp [normTournament] at hmain
  | num q => simp [normTournament] at hmain
  | str s => simp [normTournament] at hmain
  | arr l => simp [normTournament] at hmain
  | obj fields =>
    simp only [normTournament] at hmain
    split at hmain
    next nm hnm =>
      split at hmain
      next dt hdt =>
        split at hmain
        next => simp at hmain
        next tid0 htid =>
          split at hmain
          next => simp at hmain
          next v1 hv1 =>
            rw [Option.some.injEq, Prod.mk.injEq] at hmain
            obtain ⟨-, hnt⟩ := hmain
            rw [← hnt] at hres
            simp only at hres
            cases v1 with
            | obj entries =>
              simp at hres
              rw [← hres] at he
              exact dictFixEntries_len3 ntp entries e he
            | null => simp at hres
            | jbool b => simp at hres
            | num q => simp at hres
            | str s => simp at hres
            | arr l2 => simp at hres
      next => simp at hmain
    next => simp at hmain

theorem normTL_aux (ntp : List (String × String)) (u : ℕ → ℕ → String) :
    ∀ (ts : List JVal) (i : ℕ) (acc out : List (String × NTournOut)),
      (∀ p ∈ acc, ∀ es, (p : String × NTournOut).2.results = NResults.fixed es →
        ∀ e ∈ es, e.2.length = 3) →
      normTournamentsList ntp u i acc ts = some out →
      ∀ p ∈ out, ∀ es, p.2.results = NResults.fixed es → ∀ e ∈ es, e.2.length = 3 := by
  intro ts
  induction ts with
  | nil =>
    intro i acc out hacc h
    simp only [normTournamentsList, Option.some.injEq] at h
    rw [← h]
    exact hacc
  | cons t rest ih =>
    intro i acc out hacc h
    simp only [normTournamentsList] at h
    cases hnt : normTournament ntp (u i) t with
    | none => rw [hnt] at h; simp at h
    | some pr =>
      rw [hnt] at h
      obtain ⟨tid, nt⟩ := pr
      exact ih (i + 1) (alistSet acc tid nt) out
        (alistSet_forall _ _ _ _ hacc (normTournament_len3 ntp (u i) t tid nt hnt)) h

/-- Claim C10: migrating a legacy document whose tournaments collection is
a list forces every score list in every migrated results dict to exactly
three entries — shorter lists are padded with 0.0 and longer ones
truncated by the `[:3]` slice of lines 100 and 124. -/
theorem legacy_results_padded_to3 (ntp : List (String × String)) (u : ℕ → ℕ → String)
    (ts : List JVal) (out : List (String × NTournOut))
    (h : normTournamentsList ntp u 0 [] ts = some out) :
    resultsAllLen3 out = true := by
  have hall := normTL_aux ntp u ts 0 [] out (by intro p hp; simp at hp) h
  unfold resultsAllLen3
  rw [List.all_eq_true]
  intro p hp
  cases hres : p.2.results with
  | raw v => simp [hres]
  | fixed es =>
    simp only [hres]
    rw [List.all_eq_true]
    intro e heq
    have h3 := hall p hp es hres e heq
    simpa using h3

/-- Claim C10, witness: a legacy tournament list whose only row carries
two scores migrates to a results dict whose single score list is padded to
exactly three entries. -/
theorem legacy_results_padded_to3_witness :
    normTournamentsList [] (fun _ _ => "u0") 0 []
        [JVal.obj [("name", JVal.str "Spring"), ("date", JVal.str "2024-03-15"),
          ("results", JVal.arr [JVal.obj [("player", JVal.str "Bob"),
            ("r1", JVal.num 8), ("r2", JVal.num 12)]])]]
      = some [("spring|2024-03-15",
          ⟨"Spring", "2024-03-15", NResults.fixed [("bob", [8, 12, 0])]⟩)]
    ∧ resultsAllLen3 [("spring|2024-03-15",
        ⟨"Spring", "2024-03-15", NResults.fixed [("bob", [8, 12, 0])]⟩)] = true :=
  ⟨by with_unfolding_all rfl,
   legacy_results_padded_to3 [] (fun _ _ => "u0")
     [JVal.obj [("name", JVal.str "Spring"), ("date", JVal.str "2024-03-15"),
       ("results", JVal.arr [JVal.obj [("player", JVal.str "Bob"),
         ("r1", JVal.num 8), ("r2", JVal.num 12)]])]]
     [("spring|2024-03-15",
       ⟨"Spring", "2024-03-15", NResults.fixed [("bob", [8, 12, 0])]⟩)]
     (by with_unfolding_all rfl)⟩
